import Mathlib

/-!
# SPITTY: SPI proxy between a Linux board and a Duet controller

A shallow embedding of `src/LinuxMessageFormats.h` and `src/main.c`.

* The two message headers are records; their wire image is the in-memory image of the C
  structs under the ABI of the target board (natural alignment, little-endian).
* `main` is a function of the recorded behaviour of its environment: the results of the
  start-up system calls, the outcomes of the successive `read` calls on the FIFO, the
  outcomes of the successive SPI transfers, and the values of `exitRequested` seen by the
  successive tests of the loop condition.  It returns the exit status together with the
  chronological trace of what the program did (bus transfers, FIFO writes, diagnostics,
  sleeps).  When the recording ends before the program does, the run is `cutoff` and the
  trace holds everything done up to that point.
* `errno` changes only when a recorded `read` or `ioctl` fails.
* The variable-length array `response` of line 243 lives on the stack.  The process is
  taken to be started with room for the largest reply of the protocol (`MaxDataLength`
  bytes and the terminating zero); how much more room there is is a parameter of the
  run.  When the array cannot be declared (its size `response + 1` is not an `int`, or
  exceeds that room) the run ends there as `died`: nothing after the declaration is
  performed.
* Not tracked: the argument loop of `main` (it only prints), the file descriptors,
  `close`/`unlink`, the value returned by `write`, and the `speed_hz`/`bits_per_word`
  members of `struct spi_ioc_transfer`.
-/

namespace SPITTY

/-! ## LinuxMessageFormats.h -/

/-- The constant `MaxDataLength` (line 22). -/
def MaxDataLength : Nat := 2048

/-- The constant `LinuxFormatVersion` (line 28). -/
def LinuxFormatVersion : Nat := 0x8F

/-- The constant `InvalidFormatVersion` (line 29). -/
def InvalidFormatVersion : Nat := 0xC9

/-- Enumerator `nullCommand` of `LinuxRequest`. -/
def nullCommand : Nat := 0
/-- Enumerator `doGCode` of `LinuxRequest`. -/
def doGCode : Nat := 1
/-- Enumerator `getGCodeReply` of `LinuxRequest`. -/
def getGCodeReply : Nat := 2
/-- Enumerator `emergencyStop` of `LinuxRequest`. -/
def emergencyStop : Nat := 3

/-- The struct `MessageHeaderLinuxToSam` (lines 49-56); `dummy0`, `dummy1` are `dummy[2]`. -/
structure MessageHeaderLinuxToSam where
  formatVersion : Nat
  request : Nat
  dummy0 : Nat
  dummy1 : Nat
  dataLength : Nat
  dummy2 : Nat
deriving DecidableEq, Repr

/-- The struct `MessageHeaderSamToLinux` (lines 60-65); `dummy0..2` are `dummy[3]`. -/
structure MessageHeaderSamToLinux where
  formatVersion : Nat
  dummy0 : Nat
  dummy1 : Nat
  dummy2 : Nat
  response : Int
deriving DecidableEq, Repr

/-- The constant `ResponseEmpty`. -/
def ResponseEmpty : Int := 0
/-- The constant `ResponseUnknownCommand`. -/
def ResponseUnknownCommand : Int := -1
/-- The constant `ResponseBadHeaderVersion`. -/
def ResponseBadHeaderVersion : Int := -2
/-- The constant `ResponseBadDataLength`. -/
def ResponseBadDataLength : Int := -3
/-- The constant `ResponseBusy`. -/
def ResponseBusy : Int := -4
/-- The constant `ResponseBadReplyFormatVersion`. -/
def ResponseBadReplyFormatVersion : Int := -5
/-- The constant `ResponseUnknownError`. -/
def ResponseUnknownError : Int := -6

/-! ## Struct layout -/

/-- A member of a C struct whose elements are scalars: the size of one element in bytes
(which is also its alignment) and the number of elements (1 unless an array). -/
structure CMember where
  elemSize : Nat
  count : Nat
deriving DecidableEq, Repr

/-- Round `off` up to the next multiple of `a`. -/
def alignUp (off a : Nat) : Nat := (off + a - 1) / a * a

/-- Offsets of the members laid out from offset `off` on, and the offset after the last. -/
def layoutFrom : Nat → List CMember → List Nat × Nat
  | off, [] => ([], off)
  | off, m :: ms =>
    let o := alignUp off m.elemSize
    let r := layoutFrom (o + m.elemSize * m.count) ms
    (o :: r.1, r.2)

/-- Alignment of a struct: the largest alignment among its members. -/
def structAlign (ms : List CMember) : Nat := ms.foldl (fun a m => max a m.elemSize) 1

/-- Offsets of the members of a struct. -/
def memberOffsets (ms : List CMember) : List Nat := (layoutFrom 0 ms).1

/-- The value of `sizeof` for a struct: the end of the last member, padded to the alignment. -/
def sizeofStruct (ms : List CMember) : Nat := alignUp (layoutFrom 0 ms).2 (structAlign ms)

/-- Members of `struct MessageHeaderLinuxToSam`: u8, u8, u8[2], u16, u16. -/
def linuxToSamMembers : List CMember := [⟨1, 1⟩, ⟨1, 1⟩, ⟨1, 2⟩, ⟨2, 1⟩, ⟨2, 1⟩]

/-- Members of `struct MessageHeaderSamToLinux`: u8, u8[3], i32. -/
def samToLinuxMembers : List CMember := [⟨1, 1⟩, ⟨1, 3⟩, ⟨4, 1⟩]

/-- Little-endian image of a `uint16_t`. -/
def le16 (v : Nat) : List Nat := [v % 256, v / 256 % 256]

/-- Little-endian image of a 32-bit word. -/
def le32 (v : Nat) : List Nat := [v % 256, v / 256 % 256, v / 65536 % 256, v / 16777216 % 256]

/-- Two-complement image of an `int32_t` as an unsigned 32-bit word. -/
def toU32 (r : Int) : Nat := (r % 4294967296).toNat

/-- The `int32_t` denoted by an unsigned 32-bit word. -/
def toI32 (u : Nat) : Int :=
  if u % 4294967296 < 2147483648 then (u % 4294967296 : Nat) else ((u % 4294967296 : Nat) : Int) - 4294967296

/-- The bytes of a `MessageHeaderLinuxToSam` object, as `(char *)tx` exposes them. -/
def encodeLinuxToSam (h : MessageHeaderLinuxToSam) : List Nat :=
  [h.formatVersion, h.request, h.dummy0, h.dummy1] ++ le16 h.dataLength ++ le16 h.dummy2

/-- The `MessageHeaderLinuxToSam` object that a byte buffer holds. -/
def decodeLinuxToSam (b : List Nat) : MessageHeaderLinuxToSam :=
  { formatVersion := b.getD 0 0
    request := b.getD 1 0
    dummy0 := b.getD 2 0
    dummy1 := b.getD 3 0
    dataLength := b.getD 4 0 + 256 * b.getD 5 0
    dummy2 := b.getD 6 0 + 256 * b.getD 7 0 }

/-- The bytes of a `MessageHeaderSamToLinux` object, as `(char *)rx` exposes them. -/
def encodeSamToLinux (h : MessageHeaderSamToLinux) : List Nat :=
  [h.formatVersion, h.dummy0, h.dummy1, h.dummy2] ++ le32 (toU32 h.response)

/-- The `MessageHeaderSamToLinux` object that a byte buffer holds. -/
def decodeSamToLinux (b : List Nat) : MessageHeaderSamToLinux :=
  { formatVersion := b.getD 0 0
    dummy0 := b.getD 1 0
    dummy1 := b.getD 2 0
    dummy2 := b.getD 3 0
    response := toI32 (b.getD 4 0 + 256 * b.getD 5 0 + 65536 * b.getD 6 0 + 16777216 * b.getD 7 0) }

/-- Every member of an outbound header holds a value of its C type. -/
def MessageHeaderLinuxToSam.WellTyped (h : MessageHeaderLinuxToSam) : Prop :=
  h.formatVersion < 256 ∧ h.request < 256 ∧ h.dummy0 < 256 ∧ h.dummy1 < 256 ∧
    h.dataLength < 65536 ∧ h.dummy2 < 65536

instance (h : MessageHeaderLinuxToSam) : Decidable h.WellTyped := by
  unfold MessageHeaderLinuxToSam.WellTyped; infer_instance

/-! ## Environment and trace -/

/-- Recorded outcome of one `ioctl(fd, SPI_IOC_MESSAGE(1), &tr)`: failure with the value left
in `errno`, or success with the byte the peripheral clocks out at each position. -/
inductive SpiOutcome where
  | fail (e : Int)
  | ok (miso : Nat → Nat)

/-- A peripheral output stream given by its first bytes; zero bytes follow. -/
def misoOf (bs : List Nat) : Nat → Nat := fun i => bs.getD i 0

/-- Recorded outcome of one `read(fifo, buffer, MaxDataLength)`: the bytes available (none:
the call returns 0), or failure with the value left in `errno`. -/
inductive ReadOutcome where
  | data (bs : List Nat)
  | fail (e : Int)

/-- Start-up diagnostics of `main`, one per `printf`/`fprintf` before the loop. -/
inductive Msg where
  | banner | failedOpenSpi | failedSpiMode | failedSpiWordLength | failedSpiSpeed
  | usingSpi | performingHandshake | error | failedTransmit (errno : Int)
  | invalidFormatVersion | invalidResponse | success
  | failedCreatePipe | failedOpenPipe | usingFifo
deriving DecidableEq, Repr

/-- What the program does, in order. -/
inductive Event where
  /-- A call `usleep(us)`. -/
  | usleep (us : Int)
  /-- One bus transfer of `len` bytes; `tx` is the transmit buffer contents, `none` when the
  buffer was never initialised. -/
  | spi (tx : Option (List Nat)) (len : Nat)
  /-- A call `write(fifo, bs, bs.length)`. -/
  | fifoWrite (bs : List Nat)
  /-- The diagnostic "Failed to read from SPI (err %d)". -/
  | stderrSpi (errno : Int)
  /-- The diagnostic "Received invalid response (%d)". -/
  | stderrResponse (code : Int)
  /-- The diagnostic "Failed to read from FIFO (err %d)". -/
  | stderrFifo (errno : Int)
  /-- The output "TX: %s". -/
  | stdoutTx
  /-- The output "RX: %s". -/
  | stdoutRx
  /-- A start-up message. -/
  | msg (m : Msg)
deriving DecidableEq, Repr

/-- The bus transfers of a trace. -/
def busTransfers (tr : List Event) : List Event :=
  tr.filter fun e => match e with
    | .spi _ _ => true
    | _ => false

/-- The byte strings written to the FIFO in a trace. -/
def channelWrites (tr : List Event) : List (List Nat) :=
  tr.filterMap fun e => match e with
    | .fifoWrite bs => some bs
    | _ => none

/-- The response codes reported by "Received invalid response (%d)" in a trace. -/
def reportedResponses (tr : List Event) : List Int :=
  tr.filterMap fun e => match e with
    | .stderrResponse c => some c
    | _ => none

/-! ## main.c -/

/-- The constant `DefaultSpiTransactionDelay`, the value of `spiTransactionDelay` (ms). -/
def spiTransactionDelay : Int := 20

/-- The constant `DefaultUpdateInterval`, the value of `updateInterval` (ms). -/
def updateInterval : Int := 200

/-- The value of `EAGAIN` in the Linux `errno.h`. -/
def EAGAIN : Int := 11

/-- Store `bs` at the start of the buffer `buf`. -/
def writeAt (buf bs : List Nat) : List Nat := bs ++ buf.drop bs.length

/-- What a call of `spiWriteRead` leaves behind. -/
structure SpiReturn where
  result : Int
  rx : List Nat
  errno : Int

/-- What `spiWriteRead` does before the outcome of the `ioctl` is known (lines 279-288). -/
def spiWriteReadEvents (tx : Option (List Nat)) (len : Nat) : List Event :=
  [.usleep (spiTransactionDelay * 1000), .spi tx len]

/-- The function `spiWriteRead` (lines 277-289) on a receive buffer holding `rx`. -/
def spiWriteRead (rx : List Nat) (len : Nat) (errno : Int) : SpiOutcome → SpiReturn
  | .fail e => ⟨-1, rx, e⟩
  | .ok miso => ⟨len, writeAt rx ((List.range len).map miso), errno⟩

/-- What a call of `spiExchangeHeaders` leaves behind. -/
structure ExchangeReturn where
  result : Int
  rx : MessageHeaderSamToLinux
  errno : Int

/-- What `spiExchangeHeaders` does before the outcome is known (lines 272-275). -/
def spiExchangeHeadersEvents (tx : MessageHeaderLinuxToSam) : List Event :=
  spiWriteReadEvents (some (encodeLinuxToSam tx)) (sizeofStruct linuxToSamMembers)

/-- The function `spiExchangeHeaders` (lines 272-275): its result, the inbound header and
`errno` after the call.  The bytes of `_tx` go out on the bus; they are recorded by
`spiExchangeHeadersEvents` and do not influence what comes back. -/
def spiExchangeHeaders (_tx : MessageHeaderLinuxToSam) (rx : MessageHeaderSamToLinux)
    (errno : Int) (o : SpiOutcome) : ExchangeReturn :=
  let r := spiWriteRead (encodeSamToLinux rx) (sizeofStruct linuxToSamMembers) errno o
  ⟨r.result, decodeSamToLinux r.rx, r.errno⟩

/-- The inbound header that a successful header exchange leaves in `*rx` when the
peripheral clocks out `miso`: the struct held by the first `sizeof` bytes received. -/
def inboundHeader (miso : Nat → Nat) : MessageHeaderSamToLinux :=
  decodeSamToLinux ((List.range (sizeofStruct linuxToSamMembers)).map miso)

/-- The header `hdrToSend` after lines 183-184: `request = doGCode; dataLength = bytesRead`,
the assignment converting to `uint16_t`. -/
def submitHeader (hdrToSend : MessageHeaderLinuxToSam) (bytesRead : Nat) : MessageHeaderLinuxToSam :=
  { hdrToSend with request := doGCode, dataLength := bytesRead % 65536 }

/-- The header `hdrToSend` after lines 217-218: `request = getGCodeReply; dataLength = 0`. -/
def replyHeader (hdrToSend : MessageHeaderLinuxToSam) : MessageHeaderLinuxToSam :=
  { hdrToSend with request := getGCodeReply, dataLength := 0 }

/-- Bytes of stack available to the array `response` of line 243: room for the largest
reply of the protocol and its terminating zero, and `spare` bytes beyond that. -/
def stackRoom (spare : Nat) : Nat := MaxDataLength + 1 + spare

/-- The declaration `char response[hdrToRecv.response + 1]` of line 243 can be executed for
the response `r`: the size `r + 1` is a value of `int` and the array fits on the stack. -/
def arrayFits (spare : Nat) (r : Int) : Prop := r + 1 ≤ 2147483647 ∧ r + 1 ≤ stackRoom spare

instance (spare : Nat) (r : Int) : Decidable (arrayFits spare r) := by
  unfold arrayFits; infer_instance

/-- The objects of `main.c` that the session loop reads and writes, and the stack space
left beyond the room for a reply of `MaxDataLength` bytes. -/
structure Mem where
  hdrToSend : MessageHeaderLinuxToSam
  hdrToRecv : MessageHeaderSamToLinux
  buffer : List Nat
  errno : Int
  stackSpare : Nat

/-- The part of the recording not yet consumed. -/
structure Feed where
  reads : List ReadOutcome
  xfers : List SpiOutcome

/-- The call `read(fifo, buffer, count)`: the value returned, the buffer and `errno` after. -/
def readFifo (buffer : List Nat) (errno : Int) (count : Nat) : ReadOutcome → Int × List Nat × Int
  | .data bs => (((bs.take count).length : Nat), writeAt buffer (bs.take count), errno)
  | .fail e => (-1, buffer, e)

/-- How the inner `do ... while (busy && !hadError)` ends. -/
inductive SubmitRun where
  | fin (hadError : Bool) (mem : Mem) (xfers : List SpiOutcome) (tr : List Event)
  | cut (tr : List Event)

/-- Put the events `ev` before those of a run. -/
def SubmitRun.pre (ev : List Event) : SubmitRun → SubmitRun
  | .fin e m x tr => .fin e m x (ev ++ tr)
  | .cut tr => .cut (ev ++ tr)

/-- The inner loop `do ... while (busy && !hadError)` of lines 181-208.  The loop is
re-entered exactly from the `ResponseBusy` branch (`busy = true`, `hadError = false`); the
other three branches leave it, two with `hadError = true`, the last with `busy = false`. -/
def submitLoop (bytesRead : Nat) : List SpiOutcome → Mem → SubmitRun
  | [], mem =>
    let tx := submitHeader mem.hdrToSend bytesRead
    .cut (spiExchangeHeadersEvents tx)
  | o :: rest, mem =>
    let tx := submitHeader mem.hdrToSend bytesRead
    let rx := { mem.hdrToRecv with formatVersion := InvalidFormatVersion }
    let ex := spiExchangeHeaders tx rx mem.errno o
    let mem1 : Mem := { mem with hdrToSend := tx, hdrToRecv := ex.rx, errno := ex.errno }
    let ev := spiExchangeHeadersEvents tx
    if ex.result < 0 then
      .fin true mem1 rest (ev ++ [.stderrSpi mem1.errno])
    else if mem1.hdrToRecv.response = ResponseBusy then
      (submitLoop bytesRead rest mem1).pre (ev ++ [.usleep (updateInterval * 1000)])
    else if mem1.hdrToRecv.response ≠ ResponseEmpty then
      .fin true mem1 rest (ev ++ [.stderrResponse mem1.hdrToRecv.response])
    else
      let ev2 := ev ++ [.stdoutTx] ++ spiWriteReadEvents (some (mem1.buffer.take bytesRead)) bytesRead
      match rest with
      | [] => .cut ev2
      | o2 :: rest2 =>
        let r := spiWriteRead mem1.buffer bytesRead mem1.errno o2
        .fin false { mem1 with buffer := r.rx, errno := r.errno } rest2 ev2

/-- The events of a run of the inner loop. -/
def SubmitRun.trace : SubmitRun → List Event
  | .fin _ _ _ tr => tr
  | .cut tr => tr

/-- How a part of the body of the outer loop ends: control reaches the statement after it,
or a `break` leaves the outer loop, or the recording ends, or the process does not
survive the declaration of the array `response`. -/
inductive Step where
  | next (mem : Mem) (feed : Feed) (tr : List Event)
  | brk (tr : List Event)
  | cut (tr : List Event)
  | died (tr : List Event)

/-- The events of a part of the loop body. -/
def Step.trace : Step → List Event
  | .next _ _ tr => tr
  | .brk tr => tr
  | .cut tr => tr
  | .died tr => tr

/-- First part of the outer loop body (lines 162-214): read the FIFO and submit the text. -/
def commandPhase (mem : Mem) (feed : Feed) : Step :=
  match feed.reads with
  | [] => .cut []
  | rd :: reads =>
    let got := readFifo mem.buffer mem.errno MaxDataLength rd
    let bytesRead := got.1
    let mem1 : Mem := { mem with buffer := got.2.1, errno := got.2.2 }
    if bytesRead ≤ 0 then
      if mem1.errno = EAGAIN then
        .next mem1 ⟨reads, feed.xfers⟩ [.usleep (updateInterval * 1000)]
      else
        .brk [.stderrFifo mem1.errno]
    else
      match submitLoop bytesRead.toNat feed.xfers mem1 with
      | .cut tr => .cut tr
      | .fin hadError mem2 xfers tr =>
        if hadError then .brk tr else .next mem2 ⟨reads, xfers⟩ tr

/-- Second part of the outer loop body (lines 216-261): ask for a G-code reply. -/
def replyPhase (mem : Mem) (feed : Feed) : Step :=
  let tx := replyHeader mem.hdrToSend
  let rx := { mem.hdrToRecv with formatVersion := InvalidFormatVersion }
  let ev1 := spiExchangeHeadersEvents tx
  match feed.xfers with
  | [] => .cut ev1
  | o1 :: xs1 =>
    let ex1 := spiExchangeHeaders tx rx mem.errno o1
    if ex1.result < 0 then
      .brk (ev1 ++ [.stderrSpi ex1.errno])
    else
      let ev2 := ev1 ++ spiExchangeHeadersEvents tx
      match xs1 with
      | [] => .cut ev2
      | o2 :: xs2 =>
        let ex2 := spiExchangeHeaders tx ex1.rx ex1.errno o2
        let mem2 : Mem := { mem with hdrToSend := tx, hdrToRecv := ex2.rx, errno := ex2.errno }
        if ex2.result < 0 then
          .brk (ev2 ++ [.stderrSpi ex2.errno])
        else if mem2.hdrToRecv.response ≠ ResponseBusy then
          if mem2.hdrToRecv.response < 0 then
            .brk (ev2 ++ [.stderrResponse mem2.hdrToRecv.response])
          else if mem2.hdrToRecv.response ≠ 0 then
            if ¬ arrayFits mem2.stackSpare mem2.hdrToRecv.response then
              .died ev2
            else
              let len := mem2.hdrToRecv.response.toNat
              let ev3 := ev2 ++ spiWriteReadEvents none len
              match xs2 with
              | [] => .cut ev3
              | o3 :: xs3 =>
                let r := spiWriteRead [] len mem2.errno o3
                let mem3 : Mem := { mem2 with errno := r.errno }
                if r.result < 0 then
                  .next mem3 ⟨feed.reads, xs3⟩ (ev3 ++ [.stderrSpi mem3.errno])
                else if mem3.hdrToRecv.response < 0 then
                  .brk (ev3 ++ [.stderrResponse mem3.hdrToRecv.response])
                else
                  .next mem3 ⟨feed.reads, xs3⟩ (ev3 ++ [.stdoutRx, .fifoWrite (r.rx.take len)])
          else
            .next mem2 ⟨feed.reads, xs2⟩ ev2
        else
          .next mem2 ⟨feed.reads, xs2⟩ ev2

/-- How the outer loop ends. -/
inductive LoopEnd where
  /-- A `break` statement was executed. -/
  | broke
  /-- The loop condition found `exitRequested` set. -/
  | exitRequested
  /-- The recording ended first. -/
  | cutoff
  /-- The process did not survive the declaration of the array `response` (line 243). -/
  | died
deriving DecidableEq, Repr

/-- A run of the outer loop: how it ended and what it did. -/
structure LoopRun where
  stop : LoopEnd
  trace : List Event
deriving DecidableEq, Repr

/-- The body of the outer loop (lines 161-262): the command phase, then the reply phase. -/
def loopBody (mem : Mem) (feed : Feed) : Step :=
  match commandPhase mem feed with
  | .brk tr => .brk tr
  | .cut tr => .cut tr
  | .died tr => .died tr
  | .next mem1 feed1 tr1 =>
    match replyPhase mem1 feed1 with
    | .brk tr2 => .brk (tr1 ++ tr2)
    | .cut tr2 => .cut (tr1 ++ tr2)
    | .died tr2 => .died (tr1 ++ tr2)
    | .next mem2 feed2 tr2 => .next mem2 feed2 (tr1 ++ tr2)

/-- How the loop ends when its body does not reach the loop condition. -/
def LoopRun.ofStep : Step → LoopRun
  | .brk tr => ⟨.broke, tr⟩
  | .cut tr => ⟨.cutoff, tr⟩
  | .died tr => ⟨.died, tr⟩
  | .next _ _ tr => ⟨.cutoff, tr⟩

/-- The outer loop `do ... while (!exitRequested)` of lines 159-263; the first argument
lists the values of `exitRequested` found by the successive tests of the condition. -/
def sessionLoop : List Bool → Mem → Feed → LoopRun
  | [], mem, feed => LoopRun.ofStep (loopBody mem feed)
  | true :: _, mem, feed =>
    match loopBody mem feed with
    | .next _ _ tr => ⟨.exitRequested, tr⟩
    | s => LoopRun.ofStep s
  | false :: later, mem, feed =>
    match loopBody mem feed with
    | .next mem2 feed2 tr =>
      let run := sessionLoop later mem2 feed2
      ⟨run.stop, tr ++ run.trace⟩
    | s => LoopRun.ofStep s

/-- Recorded results of the start-up system calls of `main`, the value of `errno` and the
contents of `buffer` when the loop is entered, and the stack space of the process beyond
the room for a reply of `MaxDataLength` bytes. -/
structure Startup where
  openSpi : Int
  wrMode : Int
  rdMode : Int
  wrBits : Int
  rdBits : Int
  wrSpeed : Int
  rdSpeed : Int
  mkfifo : Int
  openFifo : Int
  errno : Int
  buffer : List Nat
  stackSpare : Nat

/-- How `main` ends: with a `return` of the given value, or the recording ends first, or
the process dies in the loop without returning. -/
inductive Outcome where
  | exit (code : Int)
  | cutoff
  | killed
deriving DecidableEq, Repr

/-- A run of `main`: its end, what it did, and how the outer loop ended if it was entered. -/
structure Result where
  outcome : Outcome
  trace : List Event
  loop : Option LoopEnd
deriving DecidableEq, Repr

/-- The function `main` (lines 56-270).  The test `buffer == NULL` of line 150 is on an array
and is never true. -/
def main (st : Startup) (exits : List Bool) (feed : Feed) : Result :=
  let ev0 : List Event := [.msg .banner]
  if st.openSpi < 0 then
    ⟨.exit 1, ev0 ++ [.msg .failedOpenSpi], none⟩
  else if st.wrMode < 0 ∧ st.rdMode < 0 then
    ⟨.exit 1, ev0 ++ [.msg .failedSpiMode], none⟩
  else if st.wrBits < 0 ∨ st.rdBits < 0 then
    ⟨.exit 1, ev0 ++ [.msg .failedSpiWordLength], none⟩
  else if st.wrSpeed < 0 ∨ st.rdSpeed < 0 then
    ⟨.exit 1, ev0 ++ [.msg .failedSpiSpeed], none⟩
  else
    let hdrToSend : MessageHeaderLinuxToSam :=
      { formatVersion := LinuxFormatVersion, request := nullCommand, dummy0 := 0, dummy1 := 0,
        dataLength := 0, dummy2 := 0 }
    let hdrToRecv : MessageHeaderSamToLinux :=
      { formatVersion := InvalidFormatVersion, dummy0 := 0, dummy1 := 0, dummy2 := 0,
        response := 0 }
    let ev1 := ev0 ++ [.msg .usingSpi, .msg .performingHandshake] ++
      spiExchangeHeadersEvents hdrToSend
    match feed.xfers with
    | [] => ⟨.cutoff, ev1, none⟩
    | o :: xfers =>
      let ex := spiExchangeHeaders hdrToSend hdrToRecv st.errno o
      if ex.result < 0 then
        ⟨.exit 2, ev1 ++ [.msg .error, .msg (.failedTransmit ex.errno)], none⟩
      else if ex.rx.formatVersion ≠ LinuxFormatVersion then
        ⟨.exit 3, ev1 ++ [.msg .error, .msg .invalidFormatVersion], none⟩
      else if ex.rx.response ≠ 0 then
        ⟨.exit 4, ev1 ++ [.msg .error, .msg .invalidResponse], none⟩
      else if st.mkfifo < 0 then
        ⟨.exit 5, ev1 ++ [.msg .success, .msg .failedCreatePipe], none⟩
      else if st.openFifo < 0 then
        ⟨.exit 6, ev1 ++ [.msg .success, .msg .failedOpenPipe], none⟩
      else
        let ev2 := ev1 ++ [.msg .success, .msg .usingFifo]
        let mem : Mem :=
          { hdrToSend := hdrToSend, hdrToRecv := ex.rx, buffer := st.buffer, errno := st.errno,
            stackSpare := st.stackSpare }
        let run := sessionLoop exits mem ⟨feed.reads, xfers⟩
        match run.stop with
        | .cutoff => ⟨.cutoff, ev2 ++ run.trace, some .cutoff⟩
        | .died => ⟨.killed, ev2 ++ run.trace, some .died⟩
        | s => ⟨.exit 0, ev2 ++ run.trace, some s⟩

/-- The events of `k` rounds of the inner loop that all end in the `ResponseBusy` branch:
each is one exchange of the header `tx` followed by the sleep of line 195. -/
def busyRounds (tx : MessageHeaderLinuxToSam) : Nat → List Event
  | 0 => []
  | k + 1 => spiExchangeHeadersEvents tx ++ [.usleep (updateInterval * 1000)] ++ busyRounds tx k

/-- The spare stack space with which `stackRoom` is 8 MiB, the default stack limit of a
Linux process (more than `main` can really still use). -/
def linuxStackSpare : Nat := 8386559

/-- The memory of `main` when the loop is entered after a successful handshake, with an
empty text buffer, `errno` zero and the default stack. -/
def memAtLoopEntry : Mem :=
  { hdrToSend := ⟨LinuxFormatVersion, nullCommand, 0, 0, 0, 0⟩
    hdrToRecv := ⟨LinuxFormatVersion, 0, 0, 0, 0⟩
    buffer := []
    errno := 0
    stackSpare := linuxStackSpare }

/-- The output of a peripheral that answers with the format version `v` and the response
`r`. -/
def replyOf (v : Nat) (r : Int) : Nat → Nat := misoOf ([v, 0, 0, 0] ++ le32 (toU32 r))

/-- The memory after the two header exchanges of a reply phase. -/
def afterFetch (mem : Mem) (m2 : Nat → Nat) : Mem :=
  { mem with hdrToSend := replyHeader mem.hdrToSend, hdrToRecv := inboundHeader m2 }

/-- The error reports of a trace: the three diagnostics that the loop writes to `stderr`. -/
def diagnostics (tr : List Event) : List Event :=
  tr.filter fun e => match e with
    | .stderrSpi _ => true
    | .stderrResponse _ => true
    | .stderrFifo _ => true
    | _ => false

/-- Start-up in which every system call succeeds. -/
def startupOk : Startup :=
  { openSpi := 3, wrMode := 0, rdMode := 0, wrBits := 0, rdBits := 0, wrSpeed := 0, rdSpeed := 0,
    mkfifo := 0, openFifo := 4, errno := 0, buffer := [], stackSpare := linuxStackSpare }

/-- A run of the loop in which the first header exchange of a reply fetch is answered with
`ResponseBadHeaderVersion` and the second with a reply of 3 bytes; no text is pending. -/
def fetchRejectedFirstRun : LoopRun :=
  sessionLoop [true] memAtLoopEntry
    ⟨[.fail EAGAIN], [.ok (replyOf 0x8F (-2)), .ok (replyOf 0x8F 3), .ok (misoOf [79, 107, 10])]⟩

/-- A run of the loop in which every inbound header still carries `InvalidFormatVersion`:
a submission of "G28" answered with response 0, then a fetch answered with response 3. -/
def sentinelRun : LoopRun :=
  sessionLoop [true] memAtLoopEntry
    ⟨[.data [71, 50, 56, 10]],
      [.ok (replyOf 0xC9 0), .ok (misoOf []), .ok (replyOf 0xC9 0), .ok (replyOf 0xC9 3),
        .ok (misoOf [79, 107, 10])]⟩

/-- A run of the loop in which the command payload transfer fails (second transfer). -/
def commandPayloadFailureRun : LoopRun :=
  sessionLoop [true] memAtLoopEntry
    ⟨[.data [71, 50, 56, 10]],
      [.ok (replyOf 0x8F 0), .fail 5, .ok (replyOf 0x8F (-4)), .ok (replyOf 0x8F (-4))]⟩

/-- A run of the loop in which the reply payload transfer fails (third transfer) and no
termination is requested at the end of that iteration. -/
def replyPayloadFailureRun : LoopRun :=
  sessionLoop [false, true] memAtLoopEntry
    ⟨[.fail EAGAIN, .fail EAGAIN],
      [.ok (replyOf 0x8F (-4)), .ok (replyOf 0x8F 3), .fail 5, .ok (replyOf 0x8F (-4)),
        .ok (replyOf 0x8F (-4))]⟩

/-- A run of `main` in which the start-up succeeds and the first header exchange of the
loop fails with `errno` 5. -/
def transportFailureRun : Result :=
  main startupOk [false] ⟨[.fail EAGAIN], [.ok (replyOf 0x8F 0), .fail 5]⟩

/-- A run of `main` in which the start-up succeeds and the submission of "G28" is answered
with `ResponseBadHeaderVersion`. -/
def rejectedRequestRun : Result :=
  main startupOk [false] ⟨[.data [71, 50, 56, 10]], [.ok (replyOf 0x8F 0), .ok (replyOf 0x8F (-2))]⟩

/-- A run of `main` in which the start-up succeeds and the first `read` on the FIFO fails
with `errno` 9. -/
def readFailureRun : Result :=
  main startupOk [false] ⟨[.fail 9], [.ok (replyOf 0x8F 0)]⟩

/-- A run of `main` in which nothing fails and termination is requested during the first
iteration of the loop. -/
def terminationRun : Result :=
  main startupOk [true]
    ⟨[.fail EAGAIN], [.ok (replyOf 0x8F 0), .ok (replyOf 0x8F (-4)), .ok (replyOf 0x8F (-4))]⟩

/-- A run of `main` in which the header exchange of the handshake fails with `errno` 5. -/
def handshakeFailureRun : Result :=
  main startupOk [] ⟨[], [.fail 5]⟩

/-- A run of `main` whose handshake is answered with `InvalidFormatVersion`. -/
def sentinelHandshakeRun : Result :=
  main startupOk [true] ⟨[], [.ok (replyOf 0xC9 0)]⟩

/-- Two iterations of the loop with no text pending: the four header exchanges of the two
reply fetches are answered by `b1`, `b2`, `b3`, `m`, the next transfer by `p`; termination
is requested during the second iteration. -/
def pollingRun (mem : Mem) (reads : List ReadOutcome) (later : List Bool)
    (b1 b2 b3 m p : Nat → Nat) (rest : List SpiOutcome) : LoopRun :=
  sessionLoop (false :: true :: later) mem
    ⟨.fail EAGAIN :: .fail EAGAIN :: reads, .ok b1 :: .ok b2 :: .ok b3 :: .ok m :: .ok p :: rest⟩

/-! ## Header codec -/

theorem sizeof_linuxToSam : sizeofStruct linuxToSamMembers = 8 := by decide

theorem sizeof_samToLinux : sizeofStruct samToLinuxMembers = 8 := by decide

theorem length_encodeLinuxToSam (h : MessageHeaderLinuxToSam) :
    (encodeLinuxToSam h).length = 8 := by
  simp [encodeLinuxToSam, le16]

theorem length_encodeSamToLinux (h : MessageHeaderSamToLinux) :
    (encodeSamToLinux h).length = 8 := by
  simp [encodeSamToLinux, le32]

theorem writeAt_of_length_le (buf bs : List Nat) (h : buf.length ≤ bs.length) :
    writeAt buf bs = bs := by
  simp [writeAt, List.drop_eq_nil_of_le h]

theorem spiExchangeHeaders_ok (tx : MessageHeaderLinuxToSam) (rx : MessageHeaderSamToLinux)
    (errno : Int) (miso : Nat → Nat) :
    spiExchangeHeaders tx rx errno (.ok miso) = ⟨8, inboundHeader miso, errno⟩ := by
  have hw : writeAt (encodeSamToLinux rx) ((List.range 8).map miso) = (List.range 8).map miso :=
    writeAt_of_length_le _ _ (by simp [length_encodeSamToLinux])
  simp only [spiExchangeHeaders, spiWriteRead, inboundHeader, sizeof_linuxToSam, hw]
  rfl

theorem spiExchangeHeaders_fail (tx : MessageHeaderLinuxToSam) (rx : MessageHeaderSamToLinux)
    (errno e : Int) :
    (spiExchangeHeaders tx rx errno (.fail e)).result = -1 ∧
      (spiExchangeHeaders tx rx errno (.fail e)).errno = e := by
  simp [spiExchangeHeaders, spiWriteRead]

theorem spiExchangeHeadersEvents_eq (tx : MessageHeaderLinuxToSam) :
    spiExchangeHeadersEvents tx = [.usleep 20000, .spi (some (encodeLinuxToSam tx)) 8] := by
  simp [spiExchangeHeadersEvents, spiWriteReadEvents, sizeof_linuxToSam, spiTransactionDelay]

/-- C6. Header size equality: under the layout rules of C both header structs have size 8,
the byte image of every outbound and of every inbound header has exactly that length, and
`spiExchangeHeaders` always issues one transfer of exactly that length, transmitting the
whole outbound image and, on success, filling the inbound header from exactly the first
`sizeof` bytes received. -/
theorem header_sizes_equal :
    sizeofStruct linuxToSamMembers = 8 ∧
    sizeofStruct samToLinuxMembers = sizeofStruct linuxToSamMembers ∧
    (∀ h : MessageHeaderLinuxToSam, (encodeLinuxToSam h).length = sizeofStruct linuxToSamMembers) ∧
    (∀ h : MessageHeaderSamToLinux, (encodeSamToLinux h).length = sizeofStruct samToLinuxMembers) ∧
    (∀ tx : MessageHeaderLinuxToSam, busTransfers (spiExchangeHeadersEvents tx) =
      [.spi (some (encodeLinuxToSam tx)) (sizeofStruct samToLinuxMembers)]) ∧
    (∀ tx rx errno miso,
      (spiExchangeHeaders tx rx errno (.ok miso)).result = sizeofStruct samToLinuxMembers ∧
      (spiExchangeHeaders tx rx errno (.ok miso)).rx =
        decodeSamToLinux ((List.range (sizeofStruct samToLinuxMembers)).map miso)) := by
  refine ⟨sizeof_linuxToSam, by decide, ?_, ?_, ?_, ?_⟩
  · intro h; rw [sizeof_linuxToSam]; exact length_encodeLinuxToSam h
  · intro h; rw [sizeof_samToLinux]; exact length_encodeSamToLinux h
  · intro tx
    simp [spiExchangeHeadersEvents_eq, busTransfers, sizeof_samToLinux]
  · intro tx rx errno miso
    rw [spiExchangeHeaders_ok, sizeof_samToLinux]
    exact ⟨rfl, rfl⟩

theorem le16_value (v : Nat) (h : v < 65536) : v % 256 + 256 * (v / 256 % 256) = v := by
  omega

/-- C7. Header round trip: for every outbound header whose members hold values of their C
types, the bytes that `spiExchangeHeaders` hands to the transport are the 8-byte image of
the struct, reading that image back through the same layout yields the header again, and
`formatVersion` is byte 0, `request` byte 1 and `dataLength` bytes 4..5 (members at the
offsets 0, 1, 2, 4, 6 that the layout rules give). -/
theorem header_round_trip (h : MessageHeaderLinuxToSam) (hw : h.WellTyped) :
    busTransfers (spiExchangeHeadersEvents h) = [.spi (some (encodeLinuxToSam h)) 8] ∧
    decodeLinuxToSam (encodeLinuxToSam h) = h ∧
    memberOffsets linuxToSamMembers = [0, 1, 2, 4, 6] ∧
    (encodeLinuxToSam h).getD 0 0 = h.formatVersion ∧
    (encodeLinuxToSam h).getD 1 0 = h.request ∧
    [(encodeLinuxToSam h).getD 4 0, (encodeLinuxToSam h).getD 5 0] = le16 h.dataLength ∧
    (encodeLinuxToSam h).getD 4 0 + 256 * (encodeLinuxToSam h).getD 5 0 = h.dataLength := by
  obtain ⟨_, _, _, _, h5, h6⟩ := hw
  refine ⟨by simp [spiExchangeHeadersEvents_eq, busTransfers], ?_, by decide, rfl, rfl, rfl, ?_⟩
  · cases h
    simp only [encodeLinuxToSam, decodeLinuxToSam, le16] at *
    simp only [List.cons_append, List.nil_append, List.getD_cons_zero, List.getD_cons_succ]
    congr 1
    · exact le16_value _ h5
    · exact le16_value _ h6
  · exact le16_value _ h5

theorem header_round_trip_witness :
    (MessageHeaderLinuxToSam.mk 0x8F 1 0 0 4 0).WellTyped ∧
    decodeLinuxToSam (encodeLinuxToSam ⟨0x8F, 1, 0, 0, 4, 0⟩) = ⟨0x8F, 1, 0, 0, 4, 0⟩ ∧
    encodeLinuxToSam ⟨0x8F, 1, 0, 0, 4, 0⟩ = [0x8F, 1, 0, 0, 4, 0, 0, 0] :=
  ⟨by decide, (header_round_trip ⟨0x8F, 1, 0, 0, 4, 0⟩ (by decide)).2.1, by decide⟩

/-! ## The inner loop -/

theorem SubmitRun.pre_nil (x : SubmitRun) : x.pre [] = x := by
  cases x <;> rfl

theorem SubmitRun.pre_pre (x : SubmitRun) (a b : List Event) :
    (x.pre a).pre b = x.pre (b ++ a) := by
  cases x <;> simp [SubmitRun.pre]

theorem SubmitRun.trace_pre (x : SubmitRun) (a : List Event) :
    (x.pre a).trace = a ++ x.trace := by
  cases x <;> rfl

theorem submitHeader_idem (h : MessageHeaderLinuxToSam) (n : Nat) :
    submitHeader (submitHeader h n) n = submitHeader h n := rfl

theorem submitHeader_small (h : MessageHeaderLinuxToSam) (n : Nat) (hn : n ≤ MaxDataLength) :
    submitHeader h n = { h with request := doGCode, dataLength := n } := by
  have : n % 65536 = n := Nat.mod_eq_of_lt (by unfold MaxDataLength at hn; omega)
  simp [submitHeader, this]

theorem busTransfers_append (a b : List Event) :
    busTransfers (a ++ b) = busTransfers a ++ busTransfers b := by
  simp [busTransfers]

theorem busTransfers_exchange (tx : MessageHeaderLinuxToSam) :
    busTransfers (spiExchangeHeadersEvents tx) = [.spi (some (encodeLinuxToSam tx)) 8] := by
  simp [spiExchangeHeadersEvents_eq, busTransfers]

theorem busTransfers_busyRounds (tx : MessageHeaderLinuxToSam) (k : Nat) :
    busTransfers (busyRounds tx k) = List.replicate k (.spi (some (encodeLinuxToSam tx)) 8) := by
  induction k with
  | zero => rfl
  | succ k ih =>
    simp only [busyRounds, busTransfers_append, busTransfers_exchange, ih, List.replicate_succ]
    simp [busTransfers]

theorem channelWrites_append (a b : List Event) :
    channelWrites (a ++ b) = channelWrites a ++ channelWrites b := by
  simp [channelWrites]

theorem channelWrites_busyRounds (tx : MessageHeaderLinuxToSam) (k : Nat) :
    channelWrites (busyRounds tx k) = [] := by
  induction k with
  | zero => rfl
  | succ k ih =>
    simp only [busyRounds, channelWrites_append, ih, spiExchangeHeadersEvents_eq]
    simp [channelWrites]

theorem reportedResponses_append (a b : List Event) :
    reportedResponses (a ++ b) = reportedResponses a ++ reportedResponses b := by
  simp [reportedResponses]

theorem reportedResponses_busyRounds (tx : MessageHeaderLinuxToSam) (k : Nat) :
    reportedResponses (busyRounds tx k) = [] := by
  induction k with
  | zero => rfl
  | succ k ih =>
    simp only [busyRounds, reportedResponses_append, ih, spiExchangeHeadersEvents_eq]
    simp [reportedResponses]

/-- While the peripheral answers `ResponseBusy`, the inner loop repeats the same exchange and
changes neither the header it sends nor the text buffer. -/
theorem submitLoop_busy (n : Nat) (bs : List (Nat → Nat))
    (hb : ∀ m ∈ bs, (inboundHeader m).response = ResponseBusy) (rest : List SpiOutcome)
    (mem : Mem) :
    ∃ mem1 : Mem, submitHeader mem1.hdrToSend n = submitHeader mem.hdrToSend n ∧
      mem1.buffer = mem.buffer ∧
      submitLoop n (bs.map .ok ++ rest) mem =
        (submitLoop n rest mem1).pre (busyRounds (submitHeader mem.hdrToSend n) bs.length) := by
  induction bs generalizing mem with
  | nil => exact ⟨mem, rfl, rfl, by simp [busyRounds, SubmitRun.pre_nil]⟩
  | cons m bs ih =>
    have hm : (inboundHeader m).response = ResponseBusy := hb m (by simp)
    obtain ⟨mem1, h1, h2, h3⟩ := ih (fun x hx => hb x (by simp [hx]))
      { mem with hdrToSend := submitHeader mem.hdrToSend n, hdrToRecv := inboundHeader m }
    refine ⟨mem1, by simpa using h1, by simpa using h2, ?_⟩
    simp only [List.map_cons, List.cons_append, submitLoop, spiExchangeHeaders_ok, hm]
    simp only [show ¬ ((8 : Int) < 0) by decide, if_false, if_true, List.append_eq]
    rw [h3, SubmitRun.pre_pre]
    simp [busyRounds, submitHeader_idem]

/-- Whatever the peripheral does next, the inner loop begins with an exchange of the
submission header. -/
theorem submitLoop_trace_head (n : Nat) (xs : List SpiOutcome) (mem : Mem) :
    ∃ tail, (submitLoop n xs mem).trace =
      spiExchangeHeadersEvents (submitHeader mem.hdrToSend n) ++ tail := by
  cases xs with
  | nil => exact ⟨[], by simp [submitLoop, SubmitRun.trace]⟩
  | cons o rest =>
    simp only [submitLoop]
    split_ifs
    · exact ⟨_, rfl⟩
    · exact ⟨_, (SubmitRun.trace_pre _ _).trans (List.append_assoc _ _ _)⟩
    · exact ⟨_, rfl⟩
    · cases rest with
      | nil => exact ⟨_, List.append_assoc _ _ _⟩
      | cons o2 rest2 => exact ⟨_, List.append_assoc _ _ _⟩

/-- A successful exchange answered neither Busy nor Empty: the loop ends with `hadError`. -/
theorem submitLoop_reject (n : Nat) (m : Nat → Nat) (rest : List SpiOutcome) (mem : Mem)
    (hnb : (inboundHeader m).response ≠ ResponseBusy)
    (hne : (inboundHeader m).response ≠ ResponseEmpty) :
    submitLoop n (.ok m :: rest) mem =
      .fin true { mem with hdrToSend := submitHeader mem.hdrToSend n, hdrToRecv := inboundHeader m }
        rest (spiExchangeHeadersEvents (submitHeader mem.hdrToSend n) ++
          [.stderrResponse (inboundHeader m).response]) := by
  simp only [submitLoop, spiExchangeHeaders_ok, show ¬ ((8 : Int) < 0) by decide, if_false]
  rw [if_neg hnb, if_pos hne]

/-- A successful exchange answered Empty: the payload transfer follows and the loop ends. -/
theorem submitLoop_accept (n : Nat) (m : Nat → Nat) (o : SpiOutcome) (rest : List SpiOutcome)
    (mem : Mem) (he : (inboundHeader m).response = ResponseEmpty) :
    submitLoop n (.ok m :: o :: rest) mem =
      .fin false
        { mem with
          hdrToSend := submitHeader mem.hdrToSend n
          hdrToRecv := inboundHeader m
          buffer := (spiWriteRead mem.buffer n mem.errno o).rx
          errno := (spiWriteRead mem.buffer n mem.errno o).errno }
        rest (spiExchangeHeadersEvents (submitHeader mem.hdrToSend n) ++ [.stdoutTx] ++
          spiWriteReadEvents (some (mem.buffer.take n)) n) := by
  have hnb : (inboundHeader m).response ≠ ResponseBusy := by rw [he]; decide
  simp only [submitLoop, spiExchangeHeaders_ok, show ¬ ((8 : Int) < 0) by decide, if_false]
  rw [if_neg hnb, if_neg (not_not.mpr he)]

/-! ## The loop body and the outer loop -/

theorem commandPhase_data (mem : Mem) (reads : List ReadOutcome) (xfers : List SpiOutcome)
    (text : List Nat) (h1 : 1 ≤ text.length) (h2 : text.length ≤ MaxDataLength) :
    commandPhase mem ⟨.data text :: reads, xfers⟩ =
      match submitLoop text.length xfers { mem with buffer := writeAt mem.buffer text } with
      | .cut tr => .cut tr
      | .fin hadError mem2 xs tr => if hadError then .brk tr else .next mem2 ⟨reads, xs⟩ tr := by
  have ht : text.take MaxDataLength = text := List.take_of_length_le h2
  have hpos : ¬ ((text.length : Int) ≤ 0) := by omega
  simp only [commandPhase, readFifo, ht, hpos, if_false, Int.toNat_ofNat]

theorem commandPhase_data_trace (mem : Mem) (reads : List ReadOutcome) (xfers : List SpiOutcome)
    (text : List Nat) (h1 : 1 ≤ text.length) (h2 : text.length ≤ MaxDataLength) :
    (commandPhase mem ⟨.data text :: reads, xfers⟩).trace =
      (submitLoop text.length xfers { mem with buffer := writeAt mem.buffer text }).trace := by
  rw [commandPhase_data mem reads xfers text h1 h2]
  cases submitLoop text.length xfers { mem with buffer := writeAt mem.buffer text } with
  | cut tr => rfl
  | fin e m x tr => cases e <;> rfl

theorem loopBody_of_brk (mem : Mem) (feed : Feed) (tr : List Event)
    (h : commandPhase mem feed = .brk tr) : loopBody mem feed = .brk tr := by
  simp only [loopBody, h]

theorem loopBody_reply_brk (mem mem1 : Mem) (feed feed1 : Feed) (tr1 tr2 : List Event)
    (h : commandPhase mem feed = .next mem1 feed1 tr1) (h2 : replyPhase mem1 feed1 = .brk tr2) :
    loopBody mem feed = .brk (tr1 ++ tr2) := by
  simp only [loopBody, h, h2]

theorem loopBody_next (mem mem1 mem2 : Mem) (feed feed1 feed2 : Feed) (tr1 tr2 : List Event)
    (h : commandPhase mem feed = .next mem1 feed1 tr1)
    (h2 : replyPhase mem1 feed1 = .next mem2 feed2 tr2) :
    loopBody mem feed = .next mem2 feed2 (tr1 ++ tr2) := by
  simp only [loopBody, h, h2]

theorem sessionLoop_body_brk (exits : List Bool) (mem : Mem) (feed : Feed) (tr : List Event)
    (h : loopBody mem feed = .brk tr) : sessionLoop exits mem feed = ⟨.broke, tr⟩ := by
  match exits with
  | [] => simp only [sessionLoop, h, LoopRun.ofStep]
  | true :: _ => simp only [sessionLoop, h, LoopRun.ofStep]
  | false :: _ => simp only [sessionLoop, h, LoopRun.ofStep]

theorem sessionLoop_of_brk (exits : List Bool) (mem : Mem) (feed : Feed) (tr : List Event)
    (h : commandPhase mem feed = .brk tr) : sessionLoop exits mem feed = ⟨.broke, tr⟩ :=
  sessionLoop_body_brk exits mem feed tr (loopBody_of_brk mem feed tr h)

theorem sessionLoop_reply_brk (exits : List Bool) (mem mem1 : Mem) (feed feed1 : Feed)
    (tr1 tr2 : List Event) (h : commandPhase mem feed = .next mem1 feed1 tr1)
    (h2 : replyPhase mem1 feed1 = .brk tr2) :
    sessionLoop exits mem feed = ⟨.broke, tr1 ++ tr2⟩ :=
  sessionLoop_body_brk exits mem feed _ (loopBody_reply_brk mem mem1 feed feed1 tr1 tr2 h h2)

theorem sessionLoop_again (later : List Bool) (mem mem1 mem2 : Mem) (feed feed1 feed2 : Feed)
    (tr1 tr2 : List Event) (h : commandPhase mem feed = .next mem1 feed1 tr1)
    (h2 : replyPhase mem1 feed1 = .next mem2 feed2 tr2) :
    sessionLoop (false :: later) mem feed =
      ⟨(sessionLoop later mem2 feed2).stop, tr1 ++ tr2 ++ (sessionLoop later mem2 feed2).trace⟩ := by
  simp only [sessionLoop, loopBody_next mem mem1 mem2 feed feed1 feed2 tr1 tr2 h h2]

theorem sessionLoop_exit (later : List Bool) (mem mem1 mem2 : Mem) (feed feed1 feed2 : Feed)
    (tr1 tr2 : List Event) (h : commandPhase mem feed = .next mem1 feed1 tr1)
    (h2 : replyPhase mem1 feed1 = .next mem2 feed2 tr2) :
    sessionLoop (true :: later) mem feed = ⟨.exitRequested, tr1 ++ tr2⟩ := by
  simp only [sessionLoop, loopBody_next mem mem1 mem2 feed feed1 feed2 tr1 tr2 h h2]

theorem loopBody_trace_head (mem : Mem) (feed : Feed) :
    ∃ tail, (loopBody mem feed).trace = (commandPhase mem feed).trace ++ tail := by
  unfold loopBody
  cases commandPhase mem feed with
  | brk tr => exact ⟨[], by simp [Step.trace]⟩
  | cut tr => exact ⟨[], by simp [Step.trace]⟩
  | died tr => exact ⟨[], by simp [Step.trace]⟩
  | next mem1 feed1 tr1 =>
    dsimp only
    cases replyPhase mem1 feed1 <;> exact ⟨_, rfl⟩

theorem LoopRun.ofStep_trace (s : Step) : (LoopRun.ofStep s).trace = s.trace := by
  cases s <;> rfl

/-- The trace of the outer loop begins with the trace of its first command phase. -/
theorem sessionLoop_trace_head (exits : List Bool) (mem : Mem) (feed : Feed) :
    ∃ tail, (sessionLoop exits mem feed).trace = (commandPhase mem feed).trace ++ tail := by
  obtain ⟨t, ht⟩ := loopBody_trace_head mem feed
  match exits with
  | [] => exact ⟨t, by rw [sessionLoop, LoopRun.ofStep_trace, ht]⟩
  | true :: _ =>
    rw [sessionLoop]
    cases hb : loopBody mem feed <;> rw [hb] at ht <;> exact ⟨t, ht⟩
  | false :: later =>
    rw [sessionLoop]
    cases hb : loopBody mem feed with
    | brk tr => rw [hb] at ht; exact ⟨t, ht⟩
    | cut tr => rw [hb] at ht; exact ⟨t, ht⟩
    | died tr => rw [hb] at ht; exact ⟨t, ht⟩
    | next mem2 feed2 tr =>
      rw [hb] at ht
      have ht2 : tr = (commandPhase mem feed).trace ++ t := ht
      exact ⟨t ++ (sessionLoop later mem2 feed2).trace, by
        show tr ++ _ = _
        rw [ht2, List.append_assoc]⟩

theorem commandPhase_idle (mem : Mem) (reads : List ReadOutcome) (xs : List SpiOutcome) :
    commandPhase mem ⟨.fail EAGAIN :: reads, xs⟩ =
      .next { mem with errno := EAGAIN } ⟨reads, xs⟩ [.usleep (updateInterval * 1000)] := by
  simp [commandPhase, readFifo]

/-- A submission that is answered, after any number of Busy answers, with a code that is
neither Busy nor Empty ends the loop by `break` after that header exchange. -/
theorem sessionLoop_submit_reject (mem : Mem) (reads : List ReadOutcome) (exits : List Bool)
    (text : List Nat) (h1 : 1 ≤ text.length) (h2 : text.length ≤ MaxDataLength)
    (bs : List (Nat → Nat)) (hb : ∀ m ∈ bs, (inboundHeader m).response = ResponseBusy)
    (m : Nat → Nat) (rest : List SpiOutcome) (hnb : (inboundHeader m).response ≠ ResponseBusy)
    (hne : (inboundHeader m).response ≠ ResponseEmpty) :
    sessionLoop exits mem ⟨.data text :: reads, bs.map .ok ++ .ok m :: rest⟩ =
      ⟨.broke, busyRounds (submitHeader mem.hdrToSend text.length) bs.length ++
        (spiExchangeHeadersEvents (submitHeader mem.hdrToSend text.length) ++
          [.stderrResponse (inboundHeader m).response])⟩ := by
  obtain ⟨mem1, e1, _, e3⟩ := submitLoop_busy text.length bs hb (.ok m :: rest)
    { mem with buffer := writeAt mem.buffer text }
  apply sessionLoop_of_brk
  rw [commandPhase_data mem reads _ text h1 h2, e3, submitLoop_reject _ _ _ _ hnb hne, e1]
  rfl

theorem take_replicate_succ (x : Event) (k : Nat) (a b : List Event) :
    (List.replicate k x ++ ([x] ++ a) ++ b).take (k + 1) = List.replicate (k + 1) x := by
  have h : List.replicate k x ++ ([x] ++ a) ++ b = List.replicate (k + 1) x ++ (a ++ b) := by
    rw [List.replicate_succ']; simp
  rw [h]
  exact List.take_left' (by simp)

/-- C1. Command submission busy-retry.  A text of `n` bytes (1 ≤ n ≤ 2048) is pending and the
peripheral answers the first `k` header exchanges with `ResponseBusy`.  Then (1) whatever
follows, the first `k + 1` bus transfers are header exchanges carrying the same 8 bytes:
the header with the `formatVersion` in force, `request = doGCode`, `dataLength = n`; no
payload transfer lies between them.  (2) If the next answer is neither Busy nor Empty, the
loop is left by `break`: the run consists of exactly these `k + 1` header exchanges, the
code is reported, and nothing is written to the channel.  (3) If the next answer is Empty,
the submission ends after these `k + 1` header exchanges and the one payload transfer. -/
theorem submit_busy_retry (mem : Mem) (reads : List ReadOutcome) (exits : List Bool)
    (text : List Nat) (h1 : 1 ≤ text.length) (h2 : text.length ≤ MaxDataLength)
    (bs : List (Nat → Nat)) (hb : ∀ m ∈ bs, (inboundHeader m).response = ResponseBusy) :
    (∀ rest,
      (busTransfers (sessionLoop exits mem ⟨.data text :: reads, bs.map .ok ++ rest⟩).trace).take
          (bs.length + 1) =
        List.replicate (bs.length + 1) (.spi (some (encodeLinuxToSam
          { mem.hdrToSend with request := doGCode, dataLength := text.length })) 8)) ∧
    (∀ m rest, (inboundHeader m).response ≠ ResponseBusy →
      (inboundHeader m).response ≠ ResponseEmpty →
      (sessionLoop exits mem ⟨.data text :: reads, bs.map .ok ++ .ok m :: rest⟩).stop = .broke ∧
      busTransfers (sessionLoop exits mem ⟨.data text :: reads, bs.map .ok ++ .ok m :: rest⟩).trace =
        List.replicate (bs.length + 1) (.spi (some (encodeLinuxToSam
          { mem.hdrToSend with request := doGCode, dataLength := text.length })) 8) ∧
      reportedResponses
          (sessionLoop exits mem ⟨.data text :: reads, bs.map .ok ++ .ok m :: rest⟩).trace =
        [(inboundHeader m).response] ∧
      channelWrites
          (sessionLoop exits mem ⟨.data text :: reads, bs.map .ok ++ .ok m :: rest⟩).trace = []) ∧
    (∀ m o rest, (inboundHeader m).response = ResponseEmpty →
      ∃ mem1 tr, commandPhase mem ⟨.data text :: reads, bs.map .ok ++ .ok m :: o :: rest⟩ =
          .next mem1 ⟨reads, rest⟩ tr ∧
        busTransfers tr = List.replicate (bs.length + 1) (.spi (some (encodeLinuxToSam
          { mem.hdrToSend with request := doGCode, dataLength := text.length })) 8) ++
          [.spi (some text) text.length]) := by
  have hh := submitHeader_small mem.hdrToSend text.length h2
  refine ⟨?_, ?_, ?_⟩
  · intro rest
    obtain ⟨tail1, ht1⟩ := sessionLoop_trace_head exits mem ⟨.data text :: reads, bs.map .ok ++ rest⟩
    obtain ⟨mem1, e1, _, e3⟩ := submitLoop_busy text.length bs hb rest
      { mem with buffer := writeAt mem.buffer text }
    obtain ⟨tail2, ht2⟩ := submitLoop_trace_head text.length rest mem1
    rw [ht1, commandPhase_data_trace mem reads _ text h1 h2, e3, SubmitRun.trace_pre, ht2, e1]
    simp only [busTransfers_append, busTransfers_busyRounds, busTransfers_exchange, hh]
    exact take_replicate_succ _ _ _ _
  · intro m rest hnb hne
    rw [sessionLoop_submit_reject mem reads exits text h1 h2 bs hb m rest hnb hne]
    simp only [busTransfers_append, busTransfers_busyRounds, busTransfers_exchange,
      reportedResponses_append, reportedResponses_busyRounds, channelWrites_append,
      channelWrites_busyRounds, hh, spiExchangeHeadersEvents_eq, List.replicate_succ']
    simp [busTransfers, reportedResponses, channelWrites]
  · intro m o rest he
    obtain ⟨mem1, e1, e2, e3⟩ := submitLoop_busy text.length bs hb (.ok m :: o :: rest)
      { mem with buffer := writeAt mem.buffer text }
    have hbuf : (writeAt mem.buffer text).take text.length = text := by simp [writeAt]
    rw [commandPhase_data mem reads _ text h1 h2, e3, submitLoop_accept _ _ _ _ _ he, e1, e2]
    refine ⟨_, _, rfl, ?_⟩
    simp only [busTransfers_append, busTransfers_busyRounds, busTransfers_exchange, hh, hbuf,
      spiWriteReadEvents, List.replicate_succ']
    simp [busTransfers]

theorem submit_busy_retry_witness :
    (sessionLoop [] memAtLoopEntry ⟨[.data [71, 50, 56, 10]],
        [.ok (replyOf 0x8F (-4)), .ok (replyOf 0x8F (-4)), .ok (replyOf 0x8F (-3))]⟩).stop = .broke ∧
    busTransfers (sessionLoop [] memAtLoopEntry ⟨[.data [71, 50, 56, 10]],
        [.ok (replyOf 0x8F (-4)), .ok (replyOf 0x8F (-4)), .ok (replyOf 0x8F (-3))]⟩).trace =
      [.spi (some [0x8F, 1, 0, 0, 4, 0, 0, 0]) 8, .spi (some [0x8F, 1, 0, 0, 4, 0, 0, 0]) 8,
        .spi (some [0x8F, 1, 0, 0, 4, 0, 0, 0]) 8] :=
  have h := (submit_busy_retry memAtLoopEntry [] [] [71, 50, 56, 10] (by decide) (by decide)
    [replyOf 0x8F (-4), replyOf 0x8F (-4)] (by decide)).2.1 (replyOf 0x8F (-3)) []
    (by decide) (by decide)
  ⟨h.1, h.2.1⟩

/-- C5. Accepted command submission: a text of `n` bytes (1 ≤ n ≤ 2048) was read and the
peripheral answers the header exchange with `ResponseEmpty`.  The submission then consists
of exactly two bus transfers: the 8-byte exchange of the header with `request = doGCode`
and `dataLength = n` (stored in the 16-bit member without truncation), then one transfer of
`n` bytes transmitting the text read; nothing is written to the channel, and control goes
on to the reply phase with both recorded outcomes consumed. -/
theorem accepted_submission (mem : Mem) (reads : List ReadOutcome) (text : List Nat)
    (h1 : 1 ≤ text.length) (h2 : text.length ≤ MaxDataLength) (m : Nat → Nat)
    (he : (inboundHeader m).response = ResponseEmpty) (o : SpiOutcome) (rest : List SpiOutcome) :
    ∃ mem1 tr, commandPhase mem ⟨.data text :: reads, .ok m :: o :: rest⟩ =
        .next mem1 ⟨reads, rest⟩ tr ∧
      busTransfers tr =
        [.spi (some (encodeLinuxToSam
            { mem.hdrToSend with request := doGCode, dataLength := text.length })) 8,
          .spi (some text) text.length] ∧
      channelWrites tr = [] ∧
      (submitHeader mem.hdrToSend text.length).dataLength = text.length ∧
      (decodeLinuxToSam (encodeLinuxToSam (submitHeader mem.hdrToSend text.length))).dataLength =
        text.length := by
  have hh := submitHeader_small mem.hdrToSend text.length h2
  have hbuf : (writeAt mem.buffer text).take text.length = text := by simp [writeAt]
  have hlt : text.length < 65536 := by unfold MaxDataLength at h2; omega
  rw [commandPhase_data mem reads _ text h1 h2, submitLoop_accept _ _ _ _ _ he]
  refine ⟨_, _, rfl, ?_, ?_, ?_, ?_⟩
  · simp only [busTransfers_append, busTransfers_exchange, hh, hbuf, spiWriteReadEvents]
    simp [busTransfers]
  · simp [channelWrites, spiExchangeHeadersEvents_eq, spiWriteReadEvents]
  · rw [hh]
  · rw [hh]
    simp only [encodeLinuxToSam, decodeLinuxToSam, le16, List.cons_append, List.nil_append,
      List.getD_cons_zero, List.getD_cons_succ]
    exact le16_value _ hlt

theorem accepted_submission_witness :
    ∃ mem1 tr, commandPhase memAtLoopEntry
        ⟨[.data [71, 50, 56, 10]], [.ok (replyOf 0x8F 0), .ok (misoOf []), .fail 5]⟩ =
        .next mem1 ⟨[], [.fail 5]⟩ tr ∧
      busTransfers tr =
        [.spi (some [0x8F, 1, 0, 0, 4, 0, 0, 0]) 8, .spi (some [71, 50, 56, 10]) 4] ∧
      channelWrites tr = [] :=
  have ⟨mem1, tr, h⟩ := accepted_submission memAtLoopEntry [] [71, 50, 56, 10] (by decide)
    (by decide) (replyOf 0x8F 0) (by decide) (.ok (misoOf [])) [.fail 5]
  ⟨mem1, tr, h.1, h.2.1, h.2.2.1⟩

/-! ## The reply phase -/

theorem replyPhase_busy (mem : Mem) (reads : List ReadOutcome) (m1 m2 : Nat → Nat)
    (xs : List SpiOutcome) (hb : (inboundHeader m2).response = ResponseBusy) :
    replyPhase mem ⟨reads, .ok m1 :: .ok m2 :: xs⟩ =
      .next (afterFetch mem m2) ⟨reads, xs⟩
        (spiExchangeHeadersEvents (replyHeader mem.hdrToSend) ++
          spiExchangeHeadersEvents (replyHeader mem.hdrToSend)) := by
  simp only [replyPhase, spiExchangeHeaders_ok, show ¬ ((8 : Int) < 0) by decide, if_false, hb,
    ne_eq, not_true_eq_false, afterFetch]

theorem replyPhase_reject (mem : Mem) (reads : List ReadOutcome) (m1 m2 : Nat → Nat)
    (xs : List SpiOutcome) (hneg : (inboundHeader m2).response < 0)
    (hnb : (inboundHeader m2).response ≠ ResponseBusy) :
    replyPhase mem ⟨reads, .ok m1 :: .ok m2 :: xs⟩ =
      .brk (spiExchangeHeadersEvents (replyHeader mem.hdrToSend) ++
        spiExchangeHeadersEvents (replyHeader mem.hdrToSend) ++
        [.stderrResponse (inboundHeader m2).response]) := by
  simp only [replyPhase, spiExchangeHeaders_ok, show ¬ ((8 : Int) < 0) by decide, if_false]
  rw [if_pos hnb, if_pos hneg]

theorem arrayFits_of_le (spare : Nat) (r : Int) (h0 : 0 ≤ r) (h1 : r ≤ MaxDataLength) :
    arrayFits spare r := by
  unfold arrayFits stackRoom
  unfold MaxDataLength at *
  constructor
  · omega
  · push_cast; omega

theorem replyPhase_data (mem : Mem) (reads : List ReadOutcome) (m1 m2 p : Nat → Nat)
    (xs : List SpiOutcome) (hpos : 0 < (inboundHeader m2).response)
    (hfit : arrayFits mem.stackSpare (inboundHeader m2).response) :
    replyPhase mem ⟨reads, .ok m1 :: .ok m2 :: .ok p :: xs⟩ =
      .next (afterFetch mem m2) ⟨reads, xs⟩
        (spiExchangeHeadersEvents (replyHeader mem.hdrToSend) ++
          spiExchangeHeadersEvents (replyHeader mem.hdrToSend) ++
          spiWriteReadEvents none (inboundHeader m2).response.toNat ++
          [.stdoutRx, .fifoWrite ((List.range (inboundHeader m2).response.toNat).map p)]) := by
  have hnb : (inboundHeader m2).response ≠ ResponseBusy := by
    intro h; rw [h] at hpos; exact absurd hpos (by decide)
  have hneg : ¬ (inboundHeader m2).response < 0 := by omega
  have hne : (inboundHeader m2).response ≠ 0 := by omega
  have hlen : ¬ (((inboundHeader m2).response.toNat : Nat) : Int) < 0 := by omega
  have htake : ∀ k : Nat, (writeAt [] ((List.range k).map p)).take k = (List.range k).map p := by
    intro k; simp [writeAt]
  simp only [replyPhase, spiExchangeHeaders_ok, show ¬ ((8 : Int) < 0) by decide, if_false,
    spiWriteRead, htake]
  rw [if_pos hnb, if_neg hneg, if_pos hne, if_neg (not_not.mpr hfit), if_neg hlen, if_neg hneg]
  rfl

/-- C3, as the claim states it, fails: in a reply fetch the response of the first header
exchange is not interpreted.  Answered with `ResponseBadHeaderVersion` (-2), the code
reports nothing, issues the second header exchange of the same request, performs the
payload transfer that the second answer announces, relays it, and does not leave the
loop by `break`. -/
theorem fetch_first_response_not_interpreted :
    fetchRejectedFirstRun.stop = .exitRequested ∧
    busTransfers fetchRejectedFirstRun.trace =
      [.spi (some [0x8F, 2, 0, 0, 0, 0, 0, 0]) 8, .spi (some [0x8F, 2, 0, 0, 0, 0, 0, 0]) 8,
        .spi none 3] ∧
    diagnostics fetchRejectedFirstRun.trace = [] ∧
    channelWrites fetchRejectedFirstRun.trace = [[79, 107, 10]] := by
  decide

/-- C3, amended.  A negative response code other than `ResponseBusy` in an inbound header
that the code interprets - the header of any exchange of a command submission, and the
header of the second exchange of a reply fetch - is reported as that code, is followed by
no further bus transfer and no write to the channel, and the loop is left by `break`. -/
theorem rejection_without_retry (mem : Mem) (exits : List Bool) :
    (∀ (reads : List ReadOutcome) (text : List Nat) (bs : List (Nat → Nat)) (m : Nat → Nat)
        (rest : List SpiOutcome), 1 ≤ text.length → text.length ≤ MaxDataLength →
      (∀ b ∈ bs, (inboundHeader b).response = ResponseBusy) →
      (inboundHeader m).response < 0 → (inboundHeader m).response ≠ ResponseBusy →
      (sessionLoop exits mem ⟨.data text :: reads, bs.map .ok ++ .ok m :: rest⟩).stop = .broke ∧
      busTransfers (sessionLoop exits mem ⟨.data text :: reads, bs.map .ok ++ .ok m :: rest⟩).trace =
        List.replicate (bs.length + 1)
          (.spi (some (encodeLinuxToSam (submitHeader mem.hdrToSend text.length))) 8) ∧
      diagnostics (sessionLoop exits mem ⟨.data text :: reads, bs.map .ok ++ .ok m :: rest⟩).trace =
        [.stderrResponse (inboundHeader m).response] ∧
      channelWrites
        (sessionLoop exits mem ⟨.data text :: reads, bs.map .ok ++ .ok m :: rest⟩).trace = []) ∧
    (∀ (feed : Feed) (mem1 : Mem) (reads : List ReadOutcome) (tr1 : List Event)
        (m1 m2 : Nat → Nat) (rest : List SpiOutcome),
      commandPhase mem feed = .next mem1 ⟨reads, .ok m1 :: .ok m2 :: rest⟩ tr1 →
      (inboundHeader m2).response < 0 → (inboundHeader m2).response ≠ ResponseBusy →
      ∃ tr2, sessionLoop exits mem feed = ⟨.broke, tr1 ++ tr2⟩ ∧
        busTransfers tr2 =
          [.spi (some (encodeLinuxToSam (replyHeader mem1.hdrToSend))) 8,
            .spi (some (encodeLinuxToSam (replyHeader mem1.hdrToSend))) 8] ∧
        diagnostics tr2 = [.stderrResponse (inboundHeader m2).response] ∧
        channelWrites tr2 = []) := by
  constructor
  · intro reads text bs m rest h1 h2 hb hneg hnb
    have hne : (inboundHeader m).response ≠ ResponseEmpty := by
      intro h; rw [h] at hneg; exact absurd hneg (by decide)
    rw [sessionLoop_submit_reject mem reads exits text h1 h2 bs hb m rest hnb hne]
    refine ⟨rfl, ?_, ?_, ?_⟩
    · simp only [busTransfers_append, busTransfers_busyRounds, busTransfers_exchange,
        List.replicate_succ']
      simp [busTransfers]
    · generalize submitHeader mem.hdrToSend text.length = tx
      have hd : ∀ k, diagnostics (busyRounds tx k) = [] := by
        intro k
        induction k with
        | zero => rfl
        | succ k ih =>
          simp only [busyRounds, diagnostics, List.filter_append, spiExchangeHeadersEvents_eq] at ih ⊢
          simp [ih]
      simp only [diagnostics, List.filter_append, spiExchangeHeadersEvents_eq] at hd ⊢
      simp [hd]
    · simp only [channelWrites_append, channelWrites_busyRounds, spiExchangeHeadersEvents_eq]
      simp [channelWrites]
  · intro feed mem1 reads tr1 m1 m2 rest hc hneg hnb
    refine ⟨_, sessionLoop_reply_brk exits mem mem1 feed _ tr1 _ hc
      (replyPhase_reject mem1 reads m1 m2 rest hneg hnb), ?_, ?_, ?_⟩
    · simp only [busTransfers_append, busTransfers_exchange]
      simp [busTransfers]
    · simp [diagnostics, spiExchangeHeadersEvents_eq]
    · simp [channelWrites, spiExchangeHeadersEvents_eq]

theorem rejection_without_retry_witness :
    ((sessionLoop [false] memAtLoopEntry
        ⟨[.data [71, 50, 56, 10]], [.ok (replyOf 0x8F (-2)), .ok (replyOf 0x8F 0)]⟩).stop = .broke ∧
      busTransfers (sessionLoop [false] memAtLoopEntry
        ⟨[.data [71, 50, 56, 10]], [.ok (replyOf 0x8F (-2)), .ok (replyOf 0x8F 0)]⟩).trace =
        [.spi (some [0x8F, 1, 0, 0, 4, 0, 0, 0]) 8] ∧
      diagnostics (sessionLoop [false] memAtLoopEntry
        ⟨[.data [71, 50, 56, 10]], [.ok (replyOf 0x8F (-2)), .ok (replyOf 0x8F 0)]⟩).trace =
        [.stderrResponse (-2)]) ∧
    (∃ tr2, sessionLoop [false] memAtLoopEntry
        ⟨[.fail EAGAIN], [.ok (replyOf 0x8F 0), .ok (replyOf 0x8F (-2)), .ok (replyOf 0x8F 0)]⟩ =
        ⟨.broke, [.usleep 200000] ++ tr2⟩ ∧
      busTransfers tr2 = [.spi (some [0x8F, 2, 0, 0, 0, 0, 0, 0]) 8,
        .spi (some [0x8F, 2, 0, 0, 0, 0, 0, 0]) 8] ∧
      diagnostics tr2 = [.stderrResponse (-2)]) :=
  have ha := (rejection_without_retry memAtLoopEntry [false]).1 [] [71, 50, 56, 10] []
    (replyOf 0x8F (-2)) [.ok (replyOf 0x8F 0)] (by decide) (by decide) (by decide) (by decide)
    (by decide)
  have ⟨tr2, hb⟩ := (rejection_without_retry memAtLoopEntry [false]).2
    ⟨[.fail EAGAIN], [.ok (replyOf 0x8F 0), .ok (replyOf 0x8F (-2)), .ok (replyOf 0x8F 0)]⟩
    { memAtLoopEntry with errno := EAGAIN } [] [.usleep 200000] (replyOf 0x8F 0)
    (replyOf 0x8F (-2)) [.ok (replyOf 0x8F 0)] rfl (by decide) (by decide)
  ⟨⟨ha.1, ha.2.1, ha.2.2.1⟩, ⟨tr2, hb.1, hb.2.1, hb.2.2.1⟩⟩

/-- C10. Fetch polling scenario: no text is pending and the peripheral answers the
successive header exchanges of the reply fetches with `ResponseBusy` three times and then
with response 12.  The loop then performs exactly 5 bus transfers, 4 header exchanges
followed by one transfer of 12 bytes, and writes exactly the 12 bytes received to the
channel; no error is reported, and the Busy answer does not end the loop: the second
iteration runs and the loop ends only on the termination request. -/
theorem fetch_polling_scenario (mem : Mem) (reads : List ReadOutcome) (later : List Bool)
    (b1 b2 b3 m p : Nat → Nat) (rest : List SpiOutcome)
    (h1 : (inboundHeader b1).response = ResponseBusy)
    (h2 : (inboundHeader b2).response = ResponseBusy)
    (h3 : (inboundHeader b3).response = ResponseBusy)
    (hm : (inboundHeader m).response = 12) :
    (pollingRun mem reads later b1 b2 b3 m p rest).stop = .exitRequested ∧
    busTransfers (pollingRun mem reads later b1 b2 b3 m p rest).trace =
      [.spi (some (encodeLinuxToSam (replyHeader mem.hdrToSend))) 8,
        .spi (some (encodeLinuxToSam (replyHeader mem.hdrToSend))) 8,
        .spi (some (encodeLinuxToSam (replyHeader mem.hdrToSend))) 8,
        .spi (some (encodeLinuxToSam (replyHeader mem.hdrToSend))) 8,
        .spi none 12] ∧
    (busTransfers (pollingRun mem reads later b1 b2 b3 m p rest).trace).length = 5 ∧
    channelWrites (pollingRun mem reads later b1 b2 b3 m p rest).trace =
      [(List.range 12).map p] ∧
    ((List.range 12).map p).length = 12 ∧
    diagnostics (pollingRun mem reads later b1 b2 b3 m p rest).trace = [] := by
  have _ := h1
  have _ := h3
  have hpos : 0 < (inboundHeader m).response := by rw [hm]; decide
  have hlen : (inboundHeader m).response.toNat = 12 := by rw [hm]; rfl
  have hrun : pollingRun mem reads later b1 b2 b3 m p rest =
      ⟨.exitRequested, [.usleep (updateInterval * 1000)] ++
        (spiExchangeHeadersEvents (replyHeader mem.hdrToSend) ++
          spiExchangeHeadersEvents (replyHeader mem.hdrToSend)) ++
        ([.usleep (updateInterval * 1000)] ++
          (spiExchangeHeadersEvents (replyHeader mem.hdrToSend) ++
            spiExchangeHeadersEvents (replyHeader mem.hdrToSend) ++
            spiWriteReadEvents none 12 ++ [.stdoutRx, .fifoWrite ((List.range 12).map p)]))⟩ := by
    unfold pollingRun
    rw [sessionLoop_again _ mem _ _ _ _ _ _ _ (commandPhase_idle mem _ _)
      (replyPhase_busy _ _ b1 b2 _ h2)]
    rw [sessionLoop_exit _ _ _ _ _ _ _ _ _ (commandPhase_idle _ _ _)
      (replyPhase_data _ _ b3 m p rest hpos
        (arrayFits_of_le _ _ (by rw [hm]; decide) (by rw [hm]; decide))), hlen]
    rfl
  rw [hrun]
  refine ⟨rfl, ?_, ?_, ?_, by simp, ?_⟩
  · simp [busTransfers, spiExchangeHeadersEvents_eq, spiWriteReadEvents]
  · simp [busTransfers, spiExchangeHeadersEvents_eq, spiWriteReadEvents]
  · simp [channelWrites, spiExchangeHeadersEvents_eq, spiWriteReadEvents]
  · simp [diagnostics, spiExchangeHeadersEvents_eq, spiWriteReadEvents]

theorem fetch_polling_scenario_witness :
    (pollingRun memAtLoopEntry [] [] (replyOf 0x8F (-4)) (replyOf 0x8F (-4)) (replyOf 0x8F (-4))
        (replyOf 0x8F 12) (misoOf [1, 2, 3, 4, 5, 6, 7, 8, 9, 10, 11, 12]) []).stop =
      .exitRequested ∧
    busTransfers (pollingRun memAtLoopEntry [] [] (replyOf 0x8F (-4)) (replyOf 0x8F (-4))
        (replyOf 0x8F (-4)) (replyOf 0x8F 12) (misoOf [1, 2, 3, 4, 5, 6, 7, 8, 9, 10, 11, 12])
        []).trace =
      [.spi (some [0x8F, 2, 0, 0, 0, 0, 0, 0]) 8, .spi (some [0x8F, 2, 0, 0, 0, 0, 0, 0]) 8,
        .spi (some [0x8F, 2, 0, 0, 0, 0, 0, 0]) 8, .spi (some [0x8F, 2, 0, 0, 0, 0, 0, 0]) 8,
        .spi none 12] ∧
    channelWrites (pollingRun memAtLoopEntry [] [] (replyOf 0x8F (-4)) (replyOf 0x8F (-4))
        (replyOf 0x8F (-4)) (replyOf 0x8F 12) (misoOf [1, 2, 3, 4, 5, 6, 7, 8, 9, 10, 11, 12])
        []).trace = [[1, 2, 3, 4, 5, 6, 7, 8, 9, 10, 11, 12]] :=
  have h := fetch_polling_scenario memAtLoopEntry [] [] (replyOf 0x8F (-4)) (replyOf 0x8F (-4))
    (replyOf 0x8F (-4)) (replyOf 0x8F 12) (misoOf [1, 2, 3, 4, 5, 6, 7, 8, 9, 10, 11, 12]) []
    (by decide) (by decide) (by decide) (by decide)
  ⟨h.1, h.2.1, h.2.2.2.1⟩

/-- C4 on the code.  In the loop the inbound `formatVersion` is set to the sentinel before
the exchange but never read afterwards: with every inbound header still carrying
`InvalidFormatVersion` (0xC9), the response 0 to a submission is interpreted and the
payload is sent, the response 3 to a fetch is interpreted, the 3-byte transfer is made
and its bytes are relayed, and nothing is reported.  The handshake does make the check:
the same header there ends `main` with status 3 and no further transfer. -/
theorem sentinel_version_unchecked_in_loop :
    sentinelRun.stop = .exitRequested ∧
    busTransfers sentinelRun.trace =
      [.spi (some [0x8F, 1, 0, 0, 4, 0, 0, 0]) 8, .spi (some [71, 50, 56, 10]) 4,
        .spi (some [0x8F, 2, 0, 0, 0, 0, 0, 0]) 8, .spi (some [0x8F, 2, 0, 0, 0, 0, 0, 0]) 8,
        .spi none 3] ∧
    channelWrites sentinelRun.trace = [[79, 107, 10]] ∧
    diagnostics sentinelRun.trace = [] ∧
    sentinelHandshakeRun.outcome = .exit 3 ∧
    busTransfers sentinelHandshakeRun.trace = [.spi (some [0x8F, 0, 0, 0, 0, 0, 0, 0]) 8] := by
  decide

/-- C8 on the code.  A failed payload transfer does not abort the loop.  When the command
payload transfer fails (`errno` 5) nothing is reported and the two header exchanges of the
reply fetch follow; when the reply payload transfer fails the failure is reported but no
`break` follows, and the next iteration issues two more header exchanges. -/
theorem payload_transfer_failure_not_fatal :
    commandPayloadFailureRun.stop = .exitRequested ∧
    busTransfers commandPayloadFailureRun.trace =
      [.spi (some [0x8F, 1, 0, 0, 4, 0, 0, 0]) 8, .spi (some [71, 50, 56, 10]) 4,
        .spi (some [0x8F, 2, 0, 0, 0, 0, 0, 0]) 8, .spi (some [0x8F, 2, 0, 0, 0, 0, 0, 0]) 8] ∧
    diagnostics commandPayloadFailureRun.trace = [] ∧
    replyPayloadFailureRun.stop = .exitRequested ∧
    busTransfers replyPayloadFailureRun.trace =
      [.spi (some [0x8F, 2, 0, 0, 0, 0, 0, 0]) 8, .spi (some [0x8F, 2, 0, 0, 0, 0, 0, 0]) 8,
        .spi none 3,
        .spi (some [0x8F, 2, 0, 0, 0, 0, 0, 0]) 8, .spi (some [0x8F, 2, 0, 0, 0, 0, 0, 0]) 8] ∧
    diagnostics replyPayloadFailureRun.trace = [.stderrSpi 5] ∧
    channelWrites replyPayloadFailureRun.trace = [] := by
  decide

/-- C9 on the code.  Every fatal condition inside the loop leaves it by `break` and falls
through to the single `return 0` of line 269: after a failed header exchange, after a
request rejected with `ResponseBadHeaderVersion`, and after a failed `read` on the FIFO
`main` returns 0, the value it also returns when termination was requested, although each
failure was reported on `stderr`.  The fatal conditions of the start-up do return their
own non-zero values; a failed header exchange in the handshake returns 2. -/
theorem loop_failures_return_zero :
    transportFailureRun.outcome = .exit 0 ∧
    transportFailureRun.loop = some .broke ∧
    diagnostics transportFailureRun.trace = [.stderrSpi 5] ∧
    rejectedRequestRun.outcome = .exit 0 ∧
    rejectedRequestRun.loop = some .broke ∧
    diagnostics rejectedRequestRun.trace = [.stderrResponse (-2)] ∧
    readFailureRun.outcome = .exit 0 ∧
    readFailureRun.loop = some .broke ∧
    diagnostics readFailureRun.trace = [.stderrFifo 9] ∧
    terminationRun.outcome = .exit 0 ∧
    terminationRun.loop = some .exitRequested ∧
    diagnostics terminationRun.trace = [] ∧
    handshakeFailureRun.outcome = .exit 2 := by
  decide

end SPITTY
